import Mathlib

/-!
# Verification of the tuple-samples storage subsystem

A shallow embedding of `src/optimizer/stats/tuple_samples_storage.cpp`
(Peloton's optimizer statistics sample storage) together with proofs about
its observable behaviour.

The file models:
* the pure sample-table naming scheme;
* the engine state the storage mutates (transaction counter, catalog of
  databases and tables, an event trace recording every transaction and
  catalog operation, the process-wide singleton slot);
* the operations of `TupleSamplesStorage`: `GetInstance`,
  `CreateSamplesDatabase`, `AddSamplesTable`, `DeleteSamplesTable`,
  `InsertSampleTuple`, `CollectSamplesForTable`, `GetTuplesWithSeqScan`,
  `GetTupleSamples`, `GetColumnSamples`.

External collaborators (transaction manager, catalog, executors, sampler)
are not part of the given source file; they are modelled from the spec's
§6 interface contracts, and their definitions say so in their doc comments.
Machine oids are modelled as `Nat`; cell values of sampled rows are
modelled as `Nat` as well (the claims under study are about ordering and
identity of values, not about their arithmetic).
-/

/-- A catalog object identifier (`oid_t`). -/
abbrev Oid := Nat

/-- A cell value (`type::Value`), modelled abstractly as a natural. -/
abbrev Value := Nat

/-- A row (`storage::Tuple`): one value per column. -/
abbrev Tup := List Value

/-- Result codes (`ResultType`), restricted to the constructors this
subsystem produces. -/
inductive ResultType where
  | SUCCESS
  | FAILURE
deriving DecidableEq, Repr

/-- Modelled from the spec: the hidden samples database's reserved name
(`SAMPLES_DB_NAME`, declared in the header, which is not under `src/`;
the source comments call it the `samples_db` database). -/
def SAMPLES_DB_NAME : String := "samples_db"

/-! ## The naming scheme

`GenerateSamplesTableName` is declared in the header (not under `src/`).
Modelled from the spec (§4.1): "concatenation with a separator guaranteed
not to appear inside either identifier's textual form", and from the source
comment at lines 52-53: "The table name is generated by concatenating
db_id and table_id with an underscore".  `std::to_string` on an unsigned
integer yields its decimal digit string, which we reproduce here. -/

/-- The decimal digit characters of `n`, most significant first
(the rendering `std::to_string` produces for a non-negative integer). -/
def decimalChars (n : Nat) : List Char :=
  if n = 0 then ['0'] else ((Nat.digits 10 n).reverse).map Nat.digitChar

/-- Modelled from the spec: decimal rendering of an identifier
(`std::to_string`). -/
def natToDecimalString (n : Nat) : String :=
  String.mk (decimalChars n)

/-- Modelled from the spec: `GenerateSamplesTableName(db_id, table_id)` =
`std::to_string(db_id) + "_" + std::to_string(table_id)`. -/
def GenerateSamplesTableName (database_id table_id : Oid) : String :=
  natToDecimalString database_id ++ "_" ++ natToDecimalString table_id

/-! ### Injectivity of the naming scheme -/

theorem digitChar_inj_on :
    ∀ a < 10, ∀ b < 10, Nat.digitChar a = Nat.digitChar b → a = b := by
  decide

theorem digitChar_ne_underscore : ∀ d < 10, Nat.digitChar d ≠ '_' := by
  decide

theorem map_digitChar_inj :
    ∀ (l₁ l₂ : List Nat), (∀ d ∈ l₁, d < 10) → (∀ d ∈ l₂, d < 10) →
      l₁.map Nat.digitChar = l₂.map Nat.digitChar → l₁ = l₂ := by
  intro l₁
  induction l₁ with
  | nil =>
    intro l₂ _ _ h
    cases l₂ with
    | nil => rfl
    | cons x xs => simp at h
  | cons a as ih =>
    intro l₂ h₁ h₂ h
    cases l₂ with
    | nil => simp at h
    | cons b bs =>
      simp only [List.map_cons, List.cons.injEq] at h
      have ha : a < 10 := h₁ a (List.mem_cons_self a as)
      have hb : b < 10 := h₂ b (List.mem_cons_self b bs)
      have hab : a = b := digitChar_inj_on a ha b hb h.1
      have htl : as = bs := by
        refine ih bs ?_ ?_ h.2
        · intro d hd; exact h₁ d (List.mem_cons_of_mem _ hd)
        · intro d hd; exact h₂ d (List.mem_cons_of_mem _ hd)
      rw [hab, htl]

theorem underscore_not_mem_decimalChars (n : Nat) : '_' ∉ decimalChars n := by
  unfold decimalChars
  by_cases h : n = 0
  · simp [h]
  · simp only [h, if_false, List.mem_map]
    rintro ⟨d, hd, hc⟩
    have hd10 : d < 10 :=
      Nat.digits_lt_base (by norm_num) (List.mem_reverse.mp hd)
    exact digitChar_ne_underscore d hd10 hc

theorem decimalChars_nonzero_ne_zero_chars {n : Nat} (hn : n ≠ 0) :
    ((Nat.digits 10 n).reverse).map Nat.digitChar ≠ ['0'] := by
  intro h
  have hne : Nat.digits 10 n ≠ [] := Nat.digits_ne_nil_iff_ne_zero.mpr hn
  have hlen : ((Nat.digits 10 n).reverse).length = 1 := by
    have := congrArg List.length h
    simpa using this
  obtain ⟨d, hd⟩ := List.length_eq_one.mp (by simpa using hlen)
  have hdig : Nat.digits 10 n = [d] := by
    have := congrArg List.reverse hd
    simpa using this
  have hmap : Nat.digitChar d = '0' := by
    rw [hd] at h; simpa using h
  have hd10 : d < 10 :=
    Nat.digits_lt_base (by norm_num) (by rw [hdig]; exact List.mem_singleton.mpr rfl)
  have hd0 : d = 0 := digitChar_inj_on d hd10 0 (by norm_num) (by simpa using hmap)
  have hzero : n = 0 := by
    have h1 := Nat.ofDigits_digits 10 n
    rw [hdig, hd0] at h1
    simpa [Nat.ofDigits] using h1.symm
  exact hn hzero

theorem decimalChars_inj :
    ∀ m n : Nat, decimalChars m = decimalChars n → m = n := by
  intro m n h
  by_cases hm : m = 0 <;> by_cases hn : n = 0
  · rw [hm, hn]
  · exfalso
    unfold decimalChars at h
    simp only [hm, if_true, hn, if_false] at h
    exact decimalChars_nonzero_ne_zero_chars hn h.symm
  · exfalso
    unfold decimalChars at h
    simp only [hm, if_false, hn, if_true] at h
    exact decimalChars_nonzero_ne_zero_chars hm h
  · unfold decimalChars at h
    simp only [hm, hn, if_false] at h
    have hrev : (Nat.digits 10 m).reverse = (Nat.digits 10 n).reverse := by
      refine map_digitChar_inj _ _ ?_ ?_ h
      · intro d hd
        exact Nat.digits_lt_base (by norm_num) (List.mem_reverse.mp hd)
      · intro d hd
        exact Nat.digits_lt_base (by norm_num) (List.mem_reverse.mp hd)
    have hdig : Nat.digits 10 m = Nat.digits 10 n :=
      List.reverse_injective hrev
    exact Nat.digits.injective 10 hdig

theorem append_sep_inj (sep : Char) :
    ∀ (a₁ a₂ b₁ b₂ : List Char), sep ∉ a₁ → sep ∉ a₂ →
      a₁ ++ sep :: b₁ = a₂ ++ sep :: b₂ → a₁ = a₂ ∧ b₁ = b₂ := by
  intro a₁
  induction a₁ with
  | nil =>
    intro a₂ b₁ b₂ _ h₂ h
    cases a₂ with
    | nil => simpa using h
    | cons x xs =>
      exfalso
      simp only [List.nil_append, List.cons_append, List.cons.injEq] at h
      exact h₂ (h.1 ▸ List.mem_cons_self x xs)
  | cons a as ih =>
    intro a₂ b₁ b₂ h₁ h₂ h
    cases a₂ with
    | nil =>
      exfalso
      simp only [List.nil_append, List.cons_append, List.cons.injEq] at h
      exact h₁ (h.1 ▸ List.mem_cons_self a as)
    | cons x xs =>
      simp only [List.cons_append, List.cons.injEq] at h
      have hmem₁ : sep ∉ as := fun hx => h₁ (List.mem_cons_of_mem _ hx)
      have hmem₂ : sep ∉ xs := fun hx => h₂ (List.mem_cons_of_mem _ hx)
      obtain ⟨hhd, htl⟩ := h
      obtain ⟨hxs, hb⟩ := ih xs b₁ b₂ hmem₁ hmem₂ htl
      exact ⟨by rw [hhd, hxs], hb⟩

theorem string_data_append (s t : String) : (s ++ t).data = s.data ++ t.data :=
  rfl

theorem generateSamplesTableName_data (a b : Oid) :
    (GenerateSamplesTableName a b).data =
      decimalChars a ++ '_' :: decimalChars b := by
  unfold GenerateSamplesTableName natToDecimalString
  rw [string_data_append, string_data_append, List.append_assoc]
  rfl

/-- C10: `GenerateSamplesTableName` is deterministic (it is a pure function
of its two arguments, so equal inputs give equal strings definitionally)
and injective: distinct `(database_id, table_id)` pairs always receive
distinct sample-table names. -/
theorem generateSamplesTableName_injective (a b c d : Oid)
    (hne : (a, b) ≠ (c, d)) :
    GenerateSamplesTableName a b ≠ GenerateSamplesTableName c d := by
  intro h
  have hdata := congrArg String.data h
  rw [generateSamplesTableName_data, generateSamplesTableName_data] at hdata
  obtain ⟨h₁, h₂⟩ :=
    append_sep_inj '_' (decimalChars a) (decimalChars c)
      (decimalChars b) (decimalChars d)
      (underscore_not_mem_decimalChars a) (underscore_not_mem_decimalChars c)
      hdata
  exact hne (by rw [decimalChars_inj a c h₁, decimalChars_inj b d h₂])

/-- C10 witness: the naming theorem applied at the concrete pair
`(1, 2) ≠ (3, 4)`. -/
theorem generateSamplesTableName_injective_witness :
    GenerateSamplesTableName 1 2 ≠ GenerateSamplesTableName 3 4 :=
  generateSamplesTableName_injective 1 2 3 4 (by decide)

/-! ## The engine state

The transaction manager, catalog, and executors are collaborators outside
the given source file; the state and the primitive operations below are
modelled from the spec's §6 interface contracts.  Every transaction and
catalog operation is also recorded in an event trace, so that theorems can
speak about which transaction an operation ran under. -/

/-- A sample table registered in the catalog.  Its rows are stored grouped
into physical batches (tile groups): the scan executor emits one result
batch per stored batch. -/
structure TableEntry where
  dbName : String
  tableName : String
  schema : List String
  batches : List (List Tup)
deriving DecidableEq, Repr

/-- Modelled from the spec: the catalog's databases and tables. -/
structure Catalog where
  databases : List String
  tables : List TableEntry
deriving DecidableEq, Repr

/-- One recorded transaction or catalog operation. -/
inductive Event where
  | beginTxn (txn : Nat)
  | commitTxn (txn : Nat)
  | createDatabase (dbName : String) (txn : Nat)
  | createTable (dbName tableName : String) (txn : Nat)
  | dropTable (dbName tableName : String) (txn : Nat) (result : ResultType)
  | insertTuple (dbName tableName : String) (txn : Nat) (ok : Bool)
deriving DecidableEq, Repr

/-- The engine state threaded through every operation: the transaction
manager's counter, the catalog, the event trace, the process-wide
`TupleSamplesStorage` singleton slot (with a counter so distinct
constructions would yield distinct handles), and an oracle stream of
outcomes for the external insert executor (modelled from the spec: the
insert operation "returns success/failure"; an empty stream means every
insert succeeds). -/
structure EngineState where
  nextTxn : Nat
  catalog : Catalog
  trace : List Event
  instanceHandle : Option Nat
  nextHandle : Nat
  insertOutcomes : List Bool
deriving DecidableEq, Repr

/-- Modelled from the spec: `BeginTransaction()` returns a fresh handle. -/
def beginTransaction (s : EngineState) : Nat × EngineState :=
  (s.nextTxn,
   { s with
       nextTxn := s.nextTxn + 1,
       trace := s.trace ++ [Event.beginTxn s.nextTxn] })

/-- Modelled from the spec: `CommitTransaction(txn)` finalizes `txn`. -/
def commitTransaction (txn : Nat) (s : EngineState) : EngineState :=
  { s with trace := s.trace ++ [Event.commitTxn txn] }

/-- Modelled from the spec: `GetTableWithName` returns a table handle or
null; handles are identified here by the `(database, table)` name pair. -/
def lookupTable (c : Catalog) (dbName tableName : String) :
    Option TableEntry :=
  c.tables.find? (fun t => decide (t.dbName = dbName ∧ t.tableName = tableName))

/-- Modelled from the spec: `CreateDatabase(name, txn)` registers the
database (a second creation of an existing name leaves the catalog
unchanged; the bootstrap path never attempts one). -/
def createDatabase (dbName : String) (txn : Nat) (s : EngineState) :
    EngineState :=
  let c := s.catalog
  let c' :=
    if dbName ∈ c.databases then c
    else { c with databases := c.databases ++ [dbName] }
  { s with
      catalog := c',
      trace := s.trace ++ [Event.createDatabase dbName txn] }

/-- Modelled from the spec: `CreateTable(db, name, schema, txn, flag)`
registers an empty table; creating an already-present name leaves the
catalog unchanged. -/
def createTable (dbName tableName : String) (schema : List String)
    (txn : Nat) (s : EngineState) : EngineState :=
  let c := s.catalog
  let c' :=
    match lookupTable c dbName tableName with
    | some _ => c
    | none => { c with tables := c.tables ++ [⟨dbName, tableName, schema, []⟩] }
  { s with
      catalog := c',
      trace := s.trace ++ [Event.createTable dbName tableName txn] }

/-- Modelled from the spec: `DropTable(db, name, txn)` removes the table
and reports success, or fails when it is absent. -/
def dropTable (dbName tableName : String) (txn : Nat) (s : EngineState) :
    ResultType × EngineState :=
  match lookupTable s.catalog dbName tableName with
  | some _ =>
    (ResultType.SUCCESS,
     { s with
         catalog :=
           { s.catalog with
               tables := s.catalog.tables.filter
                 (fun t => !(decide (t.dbName = dbName ∧ t.tableName = tableName))) },
         trace :=
           s.trace ++ [Event.dropTable dbName tableName txn ResultType.SUCCESS] })
  | none =>
    (ResultType.FAILURE,
     { s with
         trace :=
           s.trace ++ [Event.dropTable dbName tableName txn ResultType.FAILURE] })

/-- Append one row to a table's physical batches: it lands at the end of
the last batch (the open tile group), or opens the first batch.  Modelled
from the spec: sample tables hold a bounded row sample, so the bounded
insert path never overflows a tile group. -/
def appendRowToBatches : List (List Tup) → Tup → List (List Tup)
  | [], row => [[row]]
  | [b], row => [b ++ [row]]
  | b :: bs, row => b :: appendRowToBatches bs row

/-- Add a fully-formed row to the named table, leaving every other table
untouched. -/
def addRowToTable (dbName tableName : String) (row : Tup) (c : Catalog) :
    Catalog :=
  { c with
      tables := c.tables.map (fun t =>
        if t.dbName = dbName ∧ t.tableName = tableName then
          { t with batches := appendRowToBatches t.batches row }
        else t) }

/-- Draw the next outcome of the external insert executor from the oracle
stream (an exhausted stream yields success). -/
def takeInsertOutcome (s : EngineState) : Bool × EngineState :=
  match s.insertOutcomes with
  | [] => (true, s)
  | b :: rest => (b, { s with insertOutcomes := rest })

/-- The result of running an operation whose C++ original can dereference
a null handle: `crash` marks exactly those executions. -/
inductive ExecResult (α : Type) where
  | ok (val : α)
  | crash
deriving DecidableEq, Repr

/-- A handle to a user table outside the samples database: the fields of
`storage::DataTable` this subsystem reads. -/
structure DataTable where
  databaseOid : Oid
  oid : Oid
  name : String
  schema : List String
deriving DecidableEq, Repr

/-- Modelled from the spec: `catalog::Schema::CopySchema` produces an
independent structural copy. -/
def CopySchema (schema : List String) : List String := schema

/-! ## The operations of `TupleSamplesStorage`

Translated from `src/optimizer/stats/tuple_samples_storage.cpp`.  Each
operation takes the engine state explicitly and returns the updated state;
a caller-supplied transaction is an `Option Nat` mirroring the nullable
`concurrency::Transaction *` parameter. -/

/-- `TupleSamplesStorage::InsertSampleTuple` (lines 110-125): a null
transaction is rejected up front; otherwise the single-row insert plan is
executed to completion and its status returned.  The row is added exactly
when the executor reports success. -/
def InsertSampleTuple (samples_table : String × String) (tuple : Tup)
    (txn : Option Nat) (s : EngineState) : Bool × EngineState :=
  match txn with
  | none => (false, s)
  | some t =>
    let (status, s₁) := takeInsertOutcome s
    let s₂ :=
      if status then
        { s₁ with
            catalog := addRowToTable samples_table.1 samples_table.2 tuple s₁.catalog }
      else s₁
    (status,
     { s₂ with
         trace :=
           s₂.trace ++ [Event.insertTuple samples_table.1 samples_table.2 t status] })

/-- The `for (auto &tuple : sampled_tuples)` loop of `AddSamplesTable`
(lines 74-76): each sampled row is passed to `InsertSampleTuple` under the
same transaction, the boolean result discarded. -/
def insertLoop (samples_table : String × String) (tuples : List Tup)
    (txn : Nat) (s : EngineState) : EngineState :=
  match tuples with
  | [] => s
  | tup :: rest =>
    insertLoop samples_table rest txn
      (InsertSampleTuple samples_table tup (some txn) s).2

/-- `TupleSamplesStorage::AddSamplesTable` (lines 55-78): copy the source
table's schema, derive the sample-table name, open a fresh transaction,
create the table, look it up again, insert every sampled row, commit.
The looked-up handle is dereferenced without a null check, hence the
`crash` branch. -/
def AddSamplesTable (data_table : DataTable) (sampled_tuples : List Tup)
    (s : EngineState) : ExecResult EngineState :=
  let schema_copy := CopySchema data_table.schema
  let samples_table_name :=
    GenerateSamplesTableName data_table.databaseOid data_table.oid
  let (txn, s₁) := beginTransaction s
  let s₂ := createTable SAMPLES_DB_NAME samples_table_name schema_copy txn s₁
  match lookupTable s₂.catalog SAMPLES_DB_NAME samples_table_name with
  | none => ExecResult.crash
  | some _ =>
    ExecResult.ok
      (commitTransaction txn
        (insertLoop (SAMPLES_DB_NAME, samples_table_name) sampled_tuples txn s₂))

/-- `TupleSamplesStorage::DeleteSamplesTable` (lines 80-108): with no
caller transaction, open one, drop, and commit it; with a caller
transaction, drop under it and do not commit. -/
def DeleteSamplesTable (database_id table_id : Oid) (txn : Option Nat)
    (s : EngineState) : ResultType × EngineState :=
  let samples_table_name := GenerateSamplesTableName database_id table_id
  match txn with
  | none =>
    let (t, s₁) := beginTransaction s
    let (result, s₂) := dropTable SAMPLES_DB_NAME samples_table_name t s₁
    (result, commitTransaction t s₂)
  | some t =>
    dropTable SAMPLES_DB_NAME samples_table_name t s

/-- `TupleSamplesStorage::CollectSamplesForTable` (lines 127-139): a null
transaction returns `FAILURE` immediately; otherwise the sampler's rows
(`sampled_tuples`, an external oracle here) are persisted by
`DeleteSamplesTable` — invoked with no transaction argument, so it opens
its own — followed by `AddSamplesTable`, and `SUCCESS` is returned. -/
def CollectSamplesForTable (data_table : DataTable)
    (sampled_tuples : List Tup) (txn : Option Nat) (s : EngineState) :
    ExecResult (ResultType × EngineState) :=
  match txn with
  | none => ExecResult.ok (ResultType.FAILURE, s)
  | some _ =>
    let (_, s₁) :=
      DeleteSamplesTable data_table.databaseOid data_table.oid none s
    match AddSamplesTable data_table sampled_tuples s₁ with
    | ExecResult.crash => ExecResult.crash
    | ExecResult.ok s₂ => ExecResult.ok (ResultType.SUCCESS, s₂)

/-- Project a stored row onto the requested column offsets
(`LogicalTile::GetValue` indexes into this projected row). -/
def projectRow (column_offsets : List Nat) (row : Tup) : Tup :=
  column_offsets.map (fun c => row.getD c 0)

/-- `TupleSamplesStorage::GetTuplesWithSeqScan` (lines 141-168): null
transaction yields a null result; otherwise the sequential scan emits one
logical tile per stored batch, projected onto `column_offsets`, in table
order. -/
def GetTuplesWithSeqScan (data_table : TableEntry)
    (column_offsets : List Nat) (txn : Option Nat) :
    Option (List (List Tup)) :=
  match txn with
  | none => none
  | some _ =>
    some (data_table.batches.map (fun batch => batch.map (projectRow column_offsets)))

/-- `TupleSamplesStorage::GetTupleSamples` (lines 173-193): open a
transaction, resolve the sample table by name, scan all of its columns,
commit, return the tiles.  The handle returned by the catalog lookup is
dereferenced (`data_table->GetSchema()`) without a null check, hence the
`crash` branch when the sample table is absent. -/
def GetTupleSamples (database_id table_id : Oid) (s : EngineState) :
    ExecResult (EngineState × Option (List (List Tup))) :=
  let samples_table_name := GenerateSamplesTableName database_id table_id
  let (txn, s₁) := beginTransaction s
  match lookupTable s₁.catalog SAMPLES_DB_NAME samples_table_name with
  | none => ExecResult.crash
  | some data_table =>
    let column_ids := List.range data_table.schema.length
    let result_tiles := GetTuplesWithSeqScan data_table column_ids (some txn)
    ExecResult.ok (commitTransaction txn s₁, result_tiles)

/-- The tail of `TupleSamplesStorage::GetColumnSamples` (lines 213-221):
when at least one result tile was produced, the values of tile `0` are
appended to the accumulator in row order; later tiles are not visited. -/
def GetColumnSamplesFromTiles (result_tiles : List (List Tup))
    (column_samples : List Value) : List Value :=
  match result_tiles with
  | [] => column_samples
  | tile :: _ => column_samples ++ tile.map (fun row => row.getD 0 0)

/-- `TupleSamplesStorage::GetColumnSamples` (lines 198-222): open a
transaction, resolve the sample table by name (dereferencing the handle
without a null check), scan the single requested column, commit, and
extract values into the accumulator via `GetColumnSamplesFromTiles`. -/
def GetColumnSamples (database_id table_id column_id : Oid)
    (column_samples : List Value) (s : EngineState) :
    ExecResult (EngineState × List Value) :=
  let samples_table_name := GenerateSamplesTableName database_id table_id
  let (txn, s₁) := beginTransaction s
  match lookupTable s₁.catalog SAMPLES_DB_NAME samples_table_name with
  | none => ExecResult.crash
  | some data_table =>
    match GetTuplesWithSeqScan data_table [column_id] (some txn) with
    | none => ExecResult.crash
    | some result_tiles =>
      ExecResult.ok
        (commitTransaction txn s₁,
         GetColumnSamplesFromTiles result_tiles column_samples)

/-- `TupleSamplesStorage::CreateSamplesDatabase` (lines 44-49): create the
hidden database under a transaction of its own. -/
def CreateSamplesDatabase (s : EngineState) : EngineState :=
  let (txn, s₁) := beginTransaction s
  commitTransaction txn (createDatabase SAMPLES_DB_NAME txn s₁)

/-- `TupleSamplesStorage::GetInstance` (lines 27-30) together with the
constructor (lines 36-39): the function-local static is constructed on the
first call — running `CreateSamplesDatabase` — and every later call
returns the same handle with no further effect. -/
def GetInstance (s : EngineState) : Nat × EngineState :=
  match s.instanceHandle with
  | some h => (h, s)
  | none =>
    let h := s.nextHandle
    let s₁ := { s with nextHandle := h + 1, instanceHandle := some h }
    (h, CreateSamplesDatabase s₁)

/-- `n` successive calls of `GetInstance`, collecting the returned
handles. -/
def iterateGetInstance : Nat → EngineState → List Nat × EngineState
  | 0, s => ([], s)
  | n + 1, s =>
    let (h, s₁) := GetInstance s
    let (hs, s₂) := iterateGetInstance n s₁
    (h :: hs, s₂)

/-- A freshly booted engine: no transactions, an empty catalog, the
singleton not yet constructed. -/
def emptyEngineState : EngineState :=
  { nextTxn := 0,
    catalog := { databases := [], tables := [] },
    trace := [],
    instanceHandle := none,
    nextHandle := 0,
    insertOutcomes := [] }

/-! ## Helper lemmas about the primitive operations -/

/-- Projections of run results: the values a caller of `GetColumnSamples`
receives (`none` marks a crashed run). -/
def valuesOf : ExecResult (EngineState × List Value) → Option (List Value)
  | ExecResult.ok (_, vs) => some vs
  | ExecResult.crash => none

/-- The result code a caller of `CollectSamplesForTable` receives
(`none` marks a crashed run). -/
def resultOf : ExecResult (ResultType × EngineState) → Option ResultType
  | ExecResult.ok (r, _) => some r
  | ExecResult.crash => none

/-- The event trace left by a `CollectSamplesForTable` run. -/
def traceOfRun : ExecResult (ResultType × EngineState) → List Event
  | ExecResult.ok (_, s') => s'.trace
  | ExecResult.crash => []

/-- Whether an event is a catalog operation (as opposed to a transaction
boundary). -/
def isCatalogOp : Event → Bool
  | Event.createDatabase _ _ => true
  | Event.createTable _ _ _ => true
  | Event.dropTable _ _ _ _ => true
  | Event.insertTuple _ _ _ _ => true
  | Event.beginTxn _ => false
  | Event.commitTxn _ => false

/-- The transaction an event ran under. -/
def txnOf : Event → Nat
  | Event.beginTxn t => t
  | Event.commitTxn t => t
  | Event.createDatabase _ t => t
  | Event.createTable _ _ t => t
  | Event.dropTable _ _ t _ => t
  | Event.insertTuple _ _ t _ => t

theorem find?_append_none {α : Type} (p : α → Bool) :
    ∀ (l₁ l₂ : List α), l₁.find? p = none →
      (l₁ ++ l₂).find? p = l₂.find? p := by
  intro l₁ l₂ h
  induction l₁ with
  | nil => simp
  | cons x xs ih =>
    rw [List.find?_cons] at h
    cases hp : p x with
    | true => rw [hp] at h; exact absurd h (by simp)
    | false =>
      rw [hp] at h
      rw [List.cons_append, List.find?_cons, hp]
      exact ih h

theorem lookupTable_singleton (db tb : String) (sch : List String)
    (bs : List (List Tup)) (dbs : List String) :
    lookupTable ⟨dbs, [⟨db, tb, sch, bs⟩]⟩ db tb = some ⟨db, tb, sch, bs⟩ := by
  unfold lookupTable
  rw [List.find?_cons]
  simp

theorem lookupTable_createTable (db tb : String) (sch : List String)
    (txn : Nat) (s : EngineState) :
    ∃ e, lookupTable (createTable db tb sch txn s).catalog db tb = some e := by
  unfold createTable
  cases h : lookupTable s.catalog db tb with
  | some e => exact ⟨e, by simp [h]⟩
  | none =>
    refine ⟨⟨db, tb, sch, []⟩, ?_⟩
    simp only [h]
    unfold lookupTable at h ⊢
    rw [find?_append_none _ _ _ h, List.find?_cons]
    simp

theorem dropTable_run (db tb : String) (t : Nat) (s : EngineState) :
    ∃ r s', dropTable db tb t s = (r, s')
      ∧ s'.trace = s.trace ++ [Event.dropTable db tb t r]
      ∧ s'.nextTxn = s.nextTxn := by
  unfold dropTable
  cases h : lookupTable s.catalog db tb with
  | some e => exact ⟨ResultType.SUCCESS, _, rfl, rfl, rfl⟩
  | none => exact ⟨ResultType.FAILURE, _, rfl, rfl, rfl⟩

theorem deleteSamplesTable_none_run (db tb : Oid) (s : EngineState) :
    ∃ r s', DeleteSamplesTable db tb none s = (r, s')
      ∧ s'.trace = s.trace ++
          [Event.beginTxn s.nextTxn,
           Event.dropTable SAMPLES_DB_NAME (GenerateSamplesTableName db tb) s.nextTxn r,
           Event.commitTxn s.nextTxn]
      ∧ s'.nextTxn = s.nextTxn + 1 := by
  obtain ⟨r, s₂, heq, htr, hnx⟩ :=
    dropTable_run SAMPLES_DB_NAME (GenerateSamplesTableName db tb) s.nextTxn
      ((beginTransaction s).2)
  refine ⟨r, commitTransaction s.nextTxn s₂, ?_, ?_, ?_⟩
  · show (let (t, s₁) := beginTransaction s
          let (result, s₂) := dropTable SAMPLES_DB_NAME (GenerateSamplesTableName db tb) t s₁
          ((result, commitTransaction t s₂) : ResultType × EngineState)) = _
    simp only [beginTransaction] at heq ⊢
    rw [heq]
  · show (commitTransaction s.nextTxn s₂).trace = _
    unfold commitTransaction
    rw [htr]
    simp [beginTransaction]
  · show (commitTransaction s.nextTxn s₂).nextTxn = _
    unfold commitTransaction
    rw [hnx]
    simp [beginTransaction]

theorem insertSampleTuple_some_run (st : String × String) (tup : Tup)
    (t : Nat) (s : EngineState) :
    ∃ ok s', InsertSampleTuple st tup (some t) s = (ok, s')
      ∧ s'.trace = s.trace ++ [Event.insertTuple st.1 st.2 t ok]
      ∧ s'.nextTxn = s.nextTxn := by
  unfold InsertSampleTuple takeInsertOutcome
  cases h : s.insertOutcomes with
  | nil => exact ⟨true, _, rfl, rfl, rfl⟩
  | cons b rest => cases b <;> exact ⟨_, _, rfl, rfl, rfl⟩

theorem insertLoop_run (st : String × String) (txn : Nat) :
    ∀ (tuples : List Tup) (s : EngineState),
      ∃ evts, (insertLoop st tuples txn s).trace = s.trace ++ evts
        ∧ (∀ e ∈ evts, ∃ ok, e = Event.insertTuple st.1 st.2 txn ok)
        ∧ (insertLoop st tuples txn s).nextTxn = s.nextTxn := by
  intro tuples
  induction tuples with
  | nil =>
    intro s
    exact ⟨[], by simp [insertLoop], by simp, by simp [insertLoop]⟩
  | cons tup rest ih =>
    intro s
    obtain ⟨ok, s', heq, htr, hnx⟩ := insertSampleTuple_some_run st tup txn s
    obtain ⟨evts, htr₂, hall, hnx₂⟩ := ih s'
    refine ⟨Event.insertTuple st.1 st.2 txn ok :: evts, ?_, ?_, ?_⟩
    · show (insertLoop st (tup :: rest) txn s).trace = _
      rw [insertLoop, heq]
      rw [htr₂, htr]
      simp
    · intro e he
      rcases List.mem_cons.mp he with h | h
      · exact ⟨ok, h⟩
      · exact hall e h
    · show (insertLoop st (tup :: rest) txn s).nextTxn = _
      rw [insertLoop, heq, hnx₂, hnx]

theorem addSamplesTable_run (dt : DataTable) (sampled : List Tup)
    (s : EngineState) :
    ∃ s' evts,
      AddSamplesTable dt sampled s = ExecResult.ok s'
      ∧ s'.trace = s.trace ++
          (Event.beginTxn s.nextTxn ::
           Event.createTable SAMPLES_DB_NAME
             (GenerateSamplesTableName dt.databaseOid dt.oid) s.nextTxn :: evts)
          ++ [Event.commitTxn s.nextTxn]
      ∧ (∀ e ∈ evts, ∃ ok,
           e = Event.insertTuple SAMPLES_DB_NAME
                 (GenerateSamplesTableName dt.databaseOid dt.oid) s.nextTxn ok)
      ∧ s'.nextTxn = s.nextTxn + 1 := by
  obtain ⟨e, he⟩ :=
    lookupTable_createTable SAMPLES_DB_NAME
      (GenerateSamplesTableName dt.databaseOid dt.oid) (CopySchema dt.schema)
      s.nextTxn ((beginTransaction s).2)
  obtain ⟨evts, htr, hall, hnx⟩ :=
    insertLoop_run (SAMPLES_DB_NAME, GenerateSamplesTableName dt.databaseOid dt.oid)
      s.nextTxn sampled
      (createTable SAMPLES_DB_NAME (GenerateSamplesTableName dt.databaseOid dt.oid)
        (CopySchema dt.schema) s.nextTxn ((beginTransaction s).2))
  refine ⟨commitTransaction s.nextTxn
      (insertLoop (SAMPLES_DB_NAME, GenerateSamplesTableName dt.databaseOid dt.oid)
        sampled s.nextTxn
        (createTable SAMPLES_DB_NAME (GenerateSamplesTableName dt.databaseOid dt.oid)
          (CopySchema dt.schema) s.nextTxn ((beginTransaction s).2))),
    evts, ?_, ?_, hall, ?_⟩
  · show (match lookupTable
            (createTable SAMPLES_DB_NAME (GenerateSamplesTableName dt.databaseOid dt.oid)
              (CopySchema dt.schema) s.nextTxn ((beginTransaction s).2)).catalog
            SAMPLES_DB_NAME (GenerateSamplesTableName dt.databaseOid dt.oid) with
          | none => ExecResult.crash
          | some _ => ExecResult.ok
              (commitTransaction s.nextTxn
                (insertLoop (SAMPLES_DB_NAME, GenerateSamplesTableName dt.databaseOid dt.oid)
                  sampled s.nextTxn
                  (createTable SAMPLES_DB_NAME
                    (GenerateSamplesTableName dt.databaseOid dt.oid)
                    (CopySchema dt.schema) s.nextTxn ((beginTransaction s).2))))) = _
    rw [he]
  · show (commitTransaction _ _).trace = _
    unfold commitTransaction
    rw [htr]
    simp [createTable, beginTransaction]
  · show (commitTransaction _ _).nextTxn = _
    unfold commitTransaction
    rw [hnx]
    simp [createTable, beginTransaction]

theorem collectSamples_run (dt : DataTable) (sampled : List Tup) (t : Nat)
    (s : EngineState) :
    ∃ r evts s',
      CollectSamplesForTable dt sampled (some t) s
        = ExecResult.ok (ResultType.SUCCESS, s')
      ∧ s'.trace = s.trace ++
          ([Event.beginTxn s.nextTxn,
            Event.dropTable SAMPLES_DB_NAME
              (GenerateSamplesTableName dt.databaseOid dt.oid) s.nextTxn r,
            Event.commitTxn s.nextTxn,
            Event.beginTxn (s.nextTxn + 1),
            Event.createTable SAMPLES_DB_NAME
              (GenerateSamplesTableName dt.databaseOid dt.oid) (s.nextTxn + 1)]
           ++ evts ++ [Event.commitTxn (s.nextTxn + 1)])
      ∧ (∀ e ∈ evts, ∃ ok,
           e = Event.insertTuple SAMPLES_DB_NAME
                 (GenerateSamplesTableName dt.databaseOid dt.oid) (s.nextTxn + 1) ok)
      ∧ s'.nextTxn = s.nextTxn + 2 := by
  obtain ⟨r, s₁, hdel, htr₁, hnx₁⟩ :=
    deleteSamplesTable_none_run dt.databaseOid dt.oid s
  obtain ⟨s', evts, hadd, htr₂, hall, hnx₂⟩ := addSamplesTable_run dt sampled s₁
  rw [hnx₁] at htr₂ hall hnx₂
  refine ⟨r, evts, s', ?_, ?_, hall, ?_⟩
  · show (let (_, s₁') := DeleteSamplesTable dt.databaseOid dt.oid none s
          match AddSamplesTable dt sampled s₁' with
          | ExecResult.crash => ExecResult.crash
          | ExecResult.ok s₂ => ExecResult.ok (ResultType.SUCCESS, s₂)) = _
    rw [hdel]
    show (match AddSamplesTable dt sampled s₁ with
          | ExecResult.crash => ExecResult.crash
          | ExecResult.ok s₂ => ExecResult.ok (ResultType.SUCCESS, s₂)) = _
    rw [hadd]
  · rw [htr₂, htr₁]
    simp
  · rw [hnx₂]

theorem getColumnSamples_found (s : EngineState) (db tb col : Oid)
    (acc : List Value) (entry : TableEntry)
    (h : lookupTable s.catalog SAMPLES_DB_NAME
           (GenerateSamplesTableName db tb) = some entry) :
    GetColumnSamples db tb col acc s =
      ExecResult.ok
        (commitTransaction s.nextTxn ((beginTransaction s).2),
         GetColumnSamplesFromTiles
           (entry.batches.map (fun batch => batch.map (projectRow [col]))) acc) := by
  have h' : lookupTable ((beginTransaction s).2).catalog SAMPLES_DB_NAME
      (GenerateSamplesTableName db tb) = some entry := h
  show (match lookupTable ((beginTransaction s).2).catalog SAMPLES_DB_NAME
            (GenerateSamplesTableName db tb) with
        | none => ExecResult.crash
        | some data_table =>
          match GetTuplesWithSeqScan data_table [col] (some s.nextTxn) with
          | none => ExecResult.crash
          | some result_tiles =>
            ExecResult.ok (commitTransaction s.nextTxn ((beginTransaction s).2),
                           GetColumnSamplesFromTiles result_tiles acc)) = _
  rw [h']
  rfl

theorem getInstance_constructed (s : EngineState) (hdl : Nat)
    (h : s.instanceHandle = some hdl) : GetInstance s = (hdl, s) := by
  unfold GetInstance
  rw [h]

theorem iterateGetInstance_constructed (hdl : Nat) :
    ∀ (n : Nat) (s : EngineState), s.instanceHandle = some hdl →
      iterateGetInstance n s = (List.replicate n hdl, s) := by
  intro n
  induction n with
  | zero => intro s h; simp [iterateGetInstance]
  | succ k ih =>
    intro s h
    show (let (h₀, s₁) := GetInstance s
          let (hs, s₂) := iterateGetInstance k s₁
          ((h₀ :: hs, s₂) : List Nat × EngineState)) = _
    rw [getInstance_constructed s hdl h]
    show (let (hs, s₂) := iterateGetInstance k s
          ((hdl :: hs, s₂) : List Nat × EngineState)) = _
    rw [ih s h]
    simp [List.replicate]

theorem getInstance_fresh_run (s : EngineState) (h : s.instanceHandle = none) :
    ∃ s', GetInstance s = (s.nextHandle, s')
      ∧ s'.instanceHandle = some s.nextHandle
      ∧ s'.trace = s.trace ++
          [Event.beginTxn s.nextTxn,
           Event.createDatabase SAMPLES_DB_NAME s.nextTxn,
           Event.commitTxn s.nextTxn] := by
  unfold GetInstance
  rw [h]
  refine ⟨_, rfl, rfl, ?_⟩
  simp [CreateSamplesDatabase, commitTransaction, createDatabase, beginTransaction]

/-! ## The claims -/

theorem getColumnSamplesFromTiles_map (bs : List (List Tup)) (col : Nat)
    (acc : List Value) :
    GetColumnSamplesFromTiles
        (bs.map (fun batch => batch.map (projectRow [col]))) acc
      = acc ++ (bs.headD []).map (fun row => row.getD col 0) := by
  cases bs with
  | nil => simp [GetColumnSamplesFromTiles]
  | cons b rest =>
    simp [GetColumnSamplesFromTiles, projectRow, List.map_map, Function.comp]

/-- The behaviour C1 claims for `GetColumnSamples`, stated in the spec's
words: the requested column's value of every row of every produced batch,
appended in scan order (batch order, then row order). -/
def specColumnSamplesFromTiles (result_tiles : List (List Tup))
    (column_samples : List Value) : List Value :=
  column_samples ++ (result_tiles.flatten).map (fun row => row.getD 0 0)

/-- A sample table for `(1, 2)` whose scan produces two result batches. -/
def c1CexEntry : TableEntry :=
  { dbName := SAMPLES_DB_NAME,
    tableName := GenerateSamplesTableName 1 2,
    schema := ["c0"],
    batches := [[[10]], [[20]]] }

/-- An engine whose catalog holds exactly `c1CexEntry`. -/
def c1CexState : EngineState :=
  { emptyEngineState with
      catalog := { databases := [SAMPLES_DB_NAME], tables := [c1CexEntry] } }

/-- C1 counterexample: on a sample table whose scan produces the two
batches `[[10]]` and `[[20]]`, `GetColumnSamples` appends only `[10]` —
the values of the first batch — not the `[10, 20]` that "every row of
every produced batch" demands. -/
theorem getColumnSamples_first_tile_only_cex :
    GetTuplesWithSeqScan c1CexEntry [0] (some 0) = some [[[10]], [[20]]]
    ∧ valuesOf (GetColumnSamples 1 2 0 [] c1CexState) = some [10]
    ∧ specColumnSamplesFromTiles [[[10]], [[20]]] [] = [10, 20]
    ∧ valuesOf (GetColumnSamples 1 2 0 [] c1CexState)
        ≠ some (specColumnSamplesFromTiles [[[10]], [[20]]] []) := by
  have hl : lookupTable c1CexState.catalog SAMPLES_DB_NAME
      (GenerateSamplesTableName 1 2) = some c1CexEntry :=
    lookupTable_singleton SAMPLES_DB_NAME (GenerateSamplesTableName 1 2)
      ["c0"] [[[10]], [[20]]] [SAMPLES_DB_NAME]
  have hrun := getColumnSamples_found c1CexState 1 2 0 [] c1CexEntry hl
  refine ⟨rfl, ?_, rfl, ?_⟩
  · rw [hrun]
    rfl
  · rw [hrun]
    decide

/-- C1 (amended): whenever the sample table for `(db, tb)` is present,
`GetColumnSamples` appends to the accumulator exactly the requested
column's value of every row of the FIRST produced batch, in row order;
rows of later batches are ignored. -/
theorem getColumnSamples_appends_first_batch (s : EngineState)
    (db tb col : Oid) (acc : List Value) (entry : TableEntry)
    (h : lookupTable s.catalog SAMPLES_DB_NAME
           (GenerateSamplesTableName db tb) = some entry) :
    valuesOf (GetColumnSamples db tb col acc s)
      = some (acc ++ (entry.batches.headD []).map (fun row => row.getD col 0)) := by
  rw [getColumnSamples_found s db tb col acc entry h]
  show some (GetColumnSamplesFromTiles _ acc) = _
  rw [getColumnSamplesFromTiles_map]

/-- A one-batch sample table for `(1, 2)` with column values 7 and 9. -/
def c1WitnessEntry : TableEntry :=
  { dbName := SAMPLES_DB_NAME,
    tableName := GenerateSamplesTableName 1 2,
    schema := ["c0"],
    batches := [[[7], [9]]] }

/-- An engine whose catalog holds exactly `c1WitnessEntry`. -/
def c1WitnessState : EngineState :=
  { emptyEngineState with
      catalog := { databases := [SAMPLES_DB_NAME], tables := [c1WitnessEntry] } }

/-- C1 witness: the amended theorem at a concrete one-batch table with
values `[7, 9]` appends exactly `[7, 9]` to an empty accumulator. -/
theorem getColumnSamples_appends_first_batch_witness :
    valuesOf (GetColumnSamples 1 2 0 [] c1WitnessState) = some [7, 9] := by
  have h := getColumnSamples_appends_first_batch c1WitnessState 1 2 0 []
    c1WitnessEntry
    (lookupTable_singleton SAMPLES_DB_NAME (GenerateSamplesTableName 1 2)
      ["c0"] [[[7], [9]]] [SAMPLES_DB_NAME])
  simpa [c1WitnessEntry] using h

/-- The source user table used in the C2 counterexample. -/
def c2DataTable : DataTable :=
  { databaseOid := 1, oid := 2, name := "t0", schema := ["c0"] }

/-- C2 counterexample: running `CollectSamplesForTable` with the caller's
transaction 42 on a fresh engine, the recorded drop runs under transaction
0 while the table creation runs under transaction 1 — so no single
transaction covers the delete, the creation and the inserts. -/
theorem collectSamples_not_single_transaction_cex :
    ¬ ∃ t : Nat,
        ∀ e ∈ traceOfRun
            (CollectSamplesForTable c2DataTable [[5]] (some 42) emptyEngineState),
          isCatalogOp e = true → txnOf e = t := by
  obtain ⟨r, evts, s', heq, htr, hall, hnx⟩ :=
    collectSamples_run c2DataTable [[5]] 42 emptyEngineState
  simp only [emptyEngineState] at htr
  rintro ⟨t, hforall⟩
  have htrace : traceOfRun
      (CollectSamplesForTable c2DataTable [[5]] (some 42) emptyEngineState)
      = s'.trace := by
    rw [heq]
    rfl
  have hmem₁ : Event.dropTable SAMPLES_DB_NAME
      (GenerateSamplesTableName c2DataTable.databaseOid c2DataTable.oid) 0 r
      ∈ s'.trace := by
    rw [htr]; simp
  have hmem₂ : Event.createTable SAMPLES_DB_NAME
      (GenerateSamplesTableName c2DataTable.databaseOid c2DataTable.oid) 1
      ∈ s'.trace := by
    rw [htr]; simp
  rw [htrace] at hforall
  have h₁ := hforall _ hmem₁ rfl
  have h₂ := hforall _ hmem₂ rfl
  simp only [txnOf] at h₁ h₂
  omega

/-- C2 (amended): with a non-null caller transaction,
`CollectSamplesForTable` performs the drop of the old sample table under a
fresh transaction that `DeleteSamplesTable` itself opens and commits, and
the creation of the new sample table together with every row insert under
a second, distinct fresh transaction that `AddSamplesTable` itself opens
and commits; the caller's transaction `t` is used for none of these
operations (the trace delta below does not mention `t`). -/
theorem collectSamples_two_own_transactions (dt : DataTable)
    (sampled : List Tup) (t : Nat) (s : EngineState) :
    ∃ r evts s',
      CollectSamplesForTable dt sampled (some t) s
        = ExecResult.ok (ResultType.SUCCESS, s')
      ∧ s'.trace = s.trace ++
          ([Event.beginTxn s.nextTxn,
            Event.dropTable SAMPLES_DB_NAME
              (GenerateSamplesTableName dt.databaseOid dt.oid) s.nextTxn r,
            Event.commitTxn s.nextTxn,
            Event.beginTxn (s.nextTxn + 1),
            Event.createTable SAMPLES_DB_NAME
              (GenerateSamplesTableName dt.databaseOid dt.oid) (s.nextTxn + 1)]
           ++ evts ++ [Event.commitTxn (s.nextTxn + 1)])
      ∧ (∀ e ∈ evts, ∃ ok,
           e = Event.insertTuple SAMPLES_DB_NAME
                 (GenerateSamplesTableName dt.databaseOid dt.oid) (s.nextTxn + 1) ok)
      ∧ s.nextTxn ≠ s.nextTxn + 1 :=
  let ⟨r, evts, s', heq, htr, hall, _⟩ := collectSamples_run dt sampled t s
  ⟨r, evts, s', heq, htr, hall, by omega⟩

/-- C3 (code bug): with the sample table for `(5, 7)` absent from the
catalog, `GetTupleSamples 5 7` dereferences the null handle returned by
the catalog lookup — a crash, not the empty/absent result the spec
requires. -/
theorem getTupleSamples_absent_crashes :
    GetTupleSamples 5 7 emptyEngineState = ExecResult.crash := rfl

/-- C4: with any non-null transaction, `CollectSamplesForTable` returns
`SUCCESS` unconditionally — for every catalog state (the internal drop may
fail) and every oracle stream of insert-executor outcomes (individual
inserts may fail), the result codes of the internal steps are discarded. -/
theorem collectSamples_always_success (dt : DataTable) (sampled : List Tup)
    (t : Nat) (s : EngineState) :
    resultOf (CollectSamplesForTable dt sampled (some t) s)
      = some ResultType.SUCCESS := by
  obtain ⟨r, evts, s', heq, _, _, _⟩ := collectSamples_run dt sampled t s
  rw [heq]
  rfl

/-- C5: `DeleteSamplesTable` has two transaction modes.  With no caller
transaction its trace delta is exactly a fresh begin, the drop under that
fresh transaction, and the commit of that same transaction; with a caller
transaction `t` its trace delta is exactly the drop under `t` — no begin
and no commit. -/
theorem deleteSamplesTable_transaction_modes (db tb : Oid) (t : Nat)
    (s : EngineState) :
    (∃ r, (DeleteSamplesTable db tb none s).2.trace =
        s.trace ++
          [Event.beginTxn s.nextTxn,
           Event.dropTable SAMPLES_DB_NAME (GenerateSamplesTableName db tb)
             s.nextTxn r,
           Event.commitTxn s.nextTxn])
    ∧ (∃ r, (DeleteSamplesTable db tb (some t) s).2.trace =
        s.trace ++
          [Event.dropTable SAMPLES_DB_NAME (GenerateSamplesTableName db tb) t r]) := by
  constructor
  · obtain ⟨r, s', heq, htr, _⟩ := deleteSamplesTable_none_run db tb s
    refine ⟨r, ?_⟩
    rw [heq]
    exact htr
  · obtain ⟨r, s', heq, htr, _⟩ :=
      dropTable_run SAMPLES_DB_NAME (GenerateSamplesTableName db tb) t s
    refine ⟨r, ?_⟩
    show (dropTable SAMPLES_DB_NAME (GenerateSamplesTableName db tb) t s).2.trace = _
    rw [heq]
    exact htr

/-- C6: bootstrap idempotence.  From any state in which the singleton is
not yet constructed, `N ≥ 1` successive `GetInstance` calls return `N`
copies of one and the same handle, and the whole trace delta is a single
`createDatabase` of the hidden samples database, inside one internally
opened and committed transaction — the database is created exactly once,
on the first call. -/
theorem getInstance_bootstrap_once (N : Nat) (s : EngineState)
    (h : s.instanceHandle = none) (hN : 1 ≤ N) :
    ∃ s', iterateGetInstance N s = (List.replicate N s.nextHandle, s')
      ∧ s'.trace = s.trace ++
          [Event.beginTxn s.nextTxn,
           Event.createDatabase SAMPLES_DB_NAME s.nextTxn,
           Event.commitTxn s.nextTxn] := by
  obtain ⟨k, rfl⟩ : ∃ k, N = k + 1 := ⟨N - 1, by omega⟩
  obtain ⟨s', heq, hinst, htr⟩ := getInstance_fresh_run s h
  refine ⟨s', ?_, htr⟩
  show (let (h₀, s₁) := GetInstance s
        let (hs, s₂) := iterateGetInstance k s₁
        ((h₀ :: hs, s₂) : List Nat × EngineState)) = _
  rw [heq]
  show (let (hs, s₂) := iterateGetInstance k s'
        ((s.nextHandle :: hs, s₂) : List Nat × EngineState)) = _
  rw [iterateGetInstance_constructed s.nextHandle k s' hinst]
  simp [List.replicate]

/-- C6 witness: three calls on a fresh engine return the handle `0` three
times and create the samples database exactly once, under transaction 0. -/
theorem getInstance_bootstrap_once_witness :
    ∃ s', iterateGetInstance 3 emptyEngineState = (List.replicate 3 0, s')
      ∧ s'.trace =
          [Event.beginTxn 0, Event.createDatabase SAMPLES_DB_NAME 0,
           Event.commitTxn 0] := by
  obtain ⟨s', h₁, h₂⟩ :=
    getInstance_bootstrap_once 3 emptyEngineState rfl (by norm_num)
  refine ⟨s', ?_, ?_⟩
  · simpa [emptyEngineState] using h₁
  · simpa [emptyEngineState] using h₂

/-- C7: if the scan of the (present) sample table yields zero result
batches, `GetColumnSamples` returns normally with the accumulator exactly
unchanged. -/
theorem getColumnSamples_empty_scan_keeps_accumulator (s : EngineState)
    (db tb col : Oid) (acc : List Value) (entry : TableEntry)
    (h : lookupTable s.catalog SAMPLES_DB_NAME
           (GenerateSamplesTableName db tb) = some entry)
    (hscan : GetTuplesWithSeqScan entry [col] (some s.nextTxn) = some []) :
    valuesOf (GetColumnSamples db tb col acc s) = some acc := by
  rw [getColumnSamples_found s db tb col acc entry h]
  have hbs : entry.batches.map (fun batch => batch.map (projectRow [col])) = [] := by
    have hsome : some (entry.batches.map (fun batch => batch.map (projectRow [col])))
        = some [] := hscan
    exact Option.some.inj hsome
  show some (GetColumnSamplesFromTiles _ acc) = some acc
  rw [hbs]
  rfl

/-- A zero-row sample table for `(3, 4)`. -/
def c7Entry : TableEntry :=
  { dbName := SAMPLES_DB_NAME,
    tableName := GenerateSamplesTableName 3 4,
    schema := ["c0"],
    batches := [] }

/-- An engine whose catalog holds exactly `c7Entry`. -/
def c7State : EngineState :=
  { emptyEngineState with
      catalog := { databases := [SAMPLES_DB_NAME], tables := [c7Entry] } }

/-- C7 witness: on a zero-batch sample table, a pre-filled accumulator
`[42]` comes back exactly unchanged. -/
theorem getColumnSamples_empty_scan_keeps_accumulator_witness :
    valuesOf (GetColumnSamples 3 4 0 [42] c7State) = some [42] :=
  getColumnSamples_empty_scan_keeps_accumulator c7State 3 4 0 [42] c7Entry
    (lookupTable_singleton SAMPLES_DB_NAME (GenerateSamplesTableName 3 4)
      ["c0"] [] [SAMPLES_DB_NAME])
    rfl

/-- C8: with a null transaction, `CollectSamplesForTable` returns
`FAILURE` immediately and the engine state — catalog, trace, everything —
is exactly the input state: no sampling, no deletion, no creation, and no
crash. -/
theorem collectSamples_null_transaction (dt : DataTable) (sampled : List Tup)
    (s : EngineState) :
    CollectSamplesForTable dt sampled none s
      = ExecResult.ok (ResultType.FAILURE, s) := rfl

/-- C9: `InsertSampleTuple` with a null transaction returns `false` with
the state exactly unchanged (the insert is never attempted); with a
non-null transaction it returns the executor's status, and the catalog
afterwards holds exactly the fully-added row when the status is `true`
and is exactly unchanged when the status is `false` — no partial-row
state. -/
theorem insertSampleTuple_null_rejected_and_atomic (st : String × String)
    (tup : Tup) (s : EngineState) :
    InsertSampleTuple st tup none s = (false, s)
    ∧ ∀ t : Nat, ∃ ok s',
        InsertSampleTuple st tup (some t) s = (ok, s')
        ∧ s'.catalog =
            (if ok = true then addRowToTable st.1 st.2 tup s.catalog
             else s.catalog) := by
  refine ⟨rfl, ?_⟩
  intro t
  unfold InsertSampleTuple takeInsertOutcome
  cases h : s.insertOutcomes with
  | nil => exact ⟨true, _, rfl, by simp⟩
  | cons b rest =>
    cases b
    · exact ⟨false, _, rfl, by simp⟩
    · exact ⟨true, _, rfl, by simp⟩
